import Mathlib

/-!
Verification of the rate-limited Google Trends proxy (src/app.py).

The embedding models time as rational seconds, scores as natural numbers,
and the upstream fetcher / single-keyword pipeline as explicit function
parameters.  Each definition mirrors the corresponding Python code.
-/

namespace GoogleTrends

/-- `REQUESTS_PER_HOUR = 60` (src/app.py line 21). -/
def REQUESTS_PER_HOUR : ℕ := 60

/-- The module-level rate-limiting state: `last_request_time` (a timestamp in
seconds, modelled as a rational) and `request_count` (src/app.py lines 19-20). -/
structure QuotaWindow where
  last_request_time : ℚ
  request_count : ℕ
deriving DecidableEq, Repr

/-- Outcome of `rate_limit_check`: either the request is admitted (the random
pacing sleep is irrelevant to the claims and not modelled), or an
HTTP 429 is raised carrying the computed wait time `3600 - time_diff`. -/
inductive AdmitResult where
  | allowed
  | rejected (retryAfter : ℚ)
deriving DecidableEq, Repr

/-- `rate_limit_check` (src/app.py lines 23-41): compute
`time_diff = current_time - last_request_time`; if `time_diff > 3600` reset
the window (`request_count = 0`, `last_request_time = current_time`); if the
(possibly reset) `request_count >= REQUESTS_PER_HOUR` raise 429 with
`wait_time = 3600 - time_diff`; otherwise increment `request_count`.
Returns the result together with the updated state. -/
def rate_limit_check (st : QuotaWindow) (current_time : ℚ) : AdmitResult × QuotaWindow :=
  let time_diff := current_time - st.last_request_time
  let st1 : QuotaWindow :=
    if time_diff > 3600 then ⟨current_time, 0⟩ else st
  if st1.request_count ≥ REQUESTS_PER_HOUR then
    (.rejected (3600 - time_diff), st1)
  else
    (.allowed, ⟨st1.last_request_time, st1.request_count + 1⟩)

/-- Run a sequence of `rate_limit_check` calls at the given timestamps,
threading the quota state; returns the list of outcomes and the final state. -/
def admitSeq (st : QuotaWindow) : List ℚ → List AdmitResult × QuotaWindow
  | [] => ([], st)
  | t :: ts =>
    let step := rate_limit_check st t
    let rest := admitSeq step.2 ts
    (step.1 :: rest.1, rest.2)

/-- The response body of a successful `/trends` call (src/app.py lines 92-99,
and the `no_data` body at lines 65-72). -/
structure TrendResult where
  keyword : String
  current_score : ℕ
  average_score : ℕ
  trend_direction : String
  peak_score : ℕ
  data_points : List ℕ
deriving DecidableEq, Repr

/-- The recent average used for classification:
`sum(data[-4:]) / 4` (src/app.py line 80), over exact rationals. -/
def recent_avg (data : List ℕ) : ℚ :=
  ((data.drop (data.length - 4)).sum : ℚ) / 4

/-- The previous average used for classification:
`sum(data[-8:-4]) / 4` (src/app.py line 81), over exact rationals. -/
def previous_avg (data : List ℕ) : ℚ :=
  (((data.drop (data.length - 8)).take 4).sum : ℚ) / 4

/-- The trend classification (src/app.py lines 79-90): requires at least 8
points, then compares `recent_avg` against `previous_avg * 1.2` and
`previous_avg * 0.8`. -/
def trend_direction_of (data : List ℕ) : String :=
  if data.length ≥ 8 then
    if recent_avg data > previous_avg data * (12 / 10) then "rising"
    else if recent_avg data < previous_avg data * (8 / 10) then "falling"
    else "stable"
  else "insufficient_data"

/-- The series analysis of `get_trends` (src/app.py lines 64-99): an empty
series yields the `no_data` body with all scores `0`; otherwise
`current_score = int(data[-1])`, `average_score = int(sum(data)/len(data))`
(floor, as all scores are non-negative), `peak_score = max(data)`, and the
trend classification above. -/
def analyze (keyword : String) (data : List ℕ) : TrendResult :=
  if data.isEmpty then
    ⟨keyword, 0, 0, "no_data", 0, []⟩
  else
    ⟨keyword, data.getLastD 0, data.sum / data.length, trend_direction_of data,
      data.foldl max 0, data⟩

/-- One upstream fetch attempt: success with a raw series, a throttling
failure (an exception whose message contains "429" or "quota",
src/app.py line 104), or any other transient failure carrying its message. -/
inductive FetchOutcome where
  | success (data : List ℕ)
  | throttled
  | transient (detail : String)
deriving DecidableEq, Repr

/-- Outcome of the single-keyword pipeline after the retry loop: a result,
an HTTP 429 after exhausting throttled retries, an HTTP 500 carrying the
last error message, or Python's implicit `None` should the loop fall
through (unreachable for `max_retries = 3`). -/
inductive TrendOutcome where
  | ok (result : TrendResult)
  | rateLimited
  | unavailable (detail : String)
  | fellThrough
deriving DecidableEq, Repr

/-- `max_retries = 3` (src/app.py line 55). -/
def max_retries : ℕ := 3

/-- A run of the retry loop: its outcome, the sequence of sleeps performed
(in seconds), and the number of fetch attempts made. -/
structure RetryTrace where
  outcome : TrendOutcome
  sleeps : List ℚ
  attempts : ℕ
deriving DecidableEq, Repr

/-- The retry loop of `get_trends` (src/app.py lines 56-117), over the list
of remaining attempt indices (`for attempt in range(max_retries)`).  On
success the series is analyzed and returned; on a throttled failure with
`attempt < max_retries - 1` sleep 30s and continue, otherwise raise 429; on
a transient failure with `attempt < max_retries - 1` sleep 5s and continue,
otherwise raise 500 with the error message. -/
def retry_go (keyword : String) (fetch : ℕ → FetchOutcome) : List ℕ → RetryTrace
  | [] => ⟨.fellThrough, [], 0⟩
  | attempt :: rest =>
    match fetch attempt with
    | .success data => ⟨.ok (analyze keyword data), [], 1⟩
    | .throttled =>
      if attempt < max_retries - 1 then
        let t := retry_go keyword fetch rest
        ⟨t.outcome, 30 :: t.sleeps, t.attempts + 1⟩
      else ⟨.rateLimited, [], 1⟩
    | .transient detail =>
      if attempt < max_retries - 1 then
        let t := retry_go keyword fetch rest
        ⟨t.outcome, 5 :: t.sleeps, t.attempts + 1⟩
      else ⟨.unavailable detail, [], 1⟩

/-- `get_trends` after admission (src/app.py lines 55-117): the retry loop
over attempts `0, 1, 2`. -/
def get_trends (keyword : String) (fetch : ℕ → FetchOutcome) : RetryTrace :=
  retry_go keyword fetch (List.range max_retries)

/-- Outcome of one single-keyword pipeline call as seen by the batch
endpoint: a result, or an `HTTPException` with a status code and detail. -/
inductive PipelineOutcome where
  | ok (result : TrendResult)
  | httpError (status : ℕ) (detail : String)
deriving DecidableEq, Repr

/-- The `/trends/batch` response body (src/app.py lines 135-150). -/
structure BatchResult where
  results : List TrendResult
  isPartial : Bool
  completed : ℕ
  total : ℕ
  failed_on : Option String
deriving DecidableEq, Repr

/-- Outcome of the batch endpoint: a returned body, or a re-raised
`HTTPException` (`raise` at src/app.py line 143). -/
inductive BatchOutcome where
  | done (result : BatchResult)
  | raised (status : ℕ) (detail : String)
deriving DecidableEq, Repr

/-- The loop of `get_trends_batch` (src/app.py lines 124-150): call the
pipeline on each keyword in order, accumulating results; on an
`HTTPException` with status 429 return the partial body immediately; on any
other `HTTPException` re-raise; when all keywords are done return the full
body with `partial = False`. -/
def batch_go (pipeline : String → PipelineOutcome) (total : ℕ) :
    List String → List TrendResult → BatchOutcome
  | [], results => .done ⟨results, false, results.length, total, none⟩
  | keyword :: rest, results =>
    match pipeline keyword with
    | .ok r => batch_go pipeline total rest (results ++ [r])
    | .httpError status detail =>
      if status = 429 then
        .done ⟨results, true, results.length, total, some keyword⟩
      else
        .raised status detail

/-- `get_trends_batch` (src/app.py lines 119-150): truncate the keyword list
to 3 entries (`keywords.split(",")[:3]`, modelled on the already-split
list), then run the loop. -/
def get_trends_batch (pipeline : String → PipelineOutcome) (keywords : List String) :
    BatchOutcome :=
  let keyword_list := keywords.take 3
  batch_go pipeline keyword_list.length keyword_list []

/-- The mean of a list of scores, as the spec describes it (exact rational). -/
def listMean (l : List ℕ) : ℚ := (l.sum : ℚ) / (l.length : ℚ)

/-! ## Helper lemmas -/

theorem admitSeq_all_allowed (t0 : ℚ) :
    ∀ (times : List ℚ) (c : ℕ), (∀ t ∈ times, t - t0 ≤ 3600) →
      c + times.length ≤ REQUESTS_PER_HOUR →
      admitSeq ⟨t0, c⟩ times =
        (times.map fun _ => AdmitResult.allowed, ⟨t0, c + times.length⟩) := by
  intro times
  induction times with
  | nil => intro c _ _; simp [admitSeq]
  | cons t ts ih =>
    intro c hwin hcap
    have hstep : rate_limit_check ⟨t0, c⟩ t = (.allowed, ⟨t0, c + 1⟩) := by
      have h1 : ¬ (t - t0 > 3600) := not_lt.mpr (hwin t (by simp))
      have h2 : ¬ (c ≥ REQUESTS_PER_HOUR) := by
        simp only [List.length_cons] at hcap
        omega
      simp [rate_limit_check, h1, h2]
    simp only [admitSeq, hstep]
    have := ih (c + 1) (fun t ht => hwin t (by simp [ht])) (by simp at hcap ⊢; omega)
    rw [this]
    simp only [List.length_cons, List.map_cons]
    congr 2
    omega

theorem rate_limit_check_count_le (st : QuotaWindow) (now : ℚ)
    (h : st.request_count ≤ REQUESTS_PER_HOUR) :
    (rate_limit_check st now).2.request_count ≤ REQUESTS_PER_HOUR := by
  unfold rate_limit_check
  dsimp only
  split
  · split
    · simp
    · simp_all [REQUESTS_PER_HOUR]
  · split
    · exact h
    · simp only []
      omega

/-! ## Claims -/

/-- Claim C1: starting from a fresh window at time `t0`, a sequence of
admit calls at times all within the window (elapsed at most 3600s), of
length `N ≤ REQUESTS_PER_HOUR`, returns Allowed on every call and leaves
`request_count = N`; moreover a single `rate_limit_check` preserves the
invariant `request_count ≤ REQUESTS_PER_HOUR`. -/
theorem C1_admit_within_window (t0 : ℚ) (times : List ℚ)
    (hwin : ∀ t ∈ times, t - t0 ≤ 3600)
    (hcap : times.length ≤ REQUESTS_PER_HOUR) :
    ((admitSeq ⟨t0, 0⟩ times).1 = times.map (fun _ => AdmitResult.allowed) ∧
      (admitSeq ⟨t0, 0⟩ times).2.request_count = times.length) ∧
    ∀ st now, st.request_count ≤ REQUESTS_PER_HOUR →
      (rate_limit_check st now).2.request_count ≤ REQUESTS_PER_HOUR := by
  refine ⟨?_, fun st now h => rate_limit_check_count_le st now h⟩
  have := admitSeq_all_allowed t0 times 0 hwin (by simp [hcap])
  rw [this]
  simp

/-- Witness for C1 at three concrete admissions. -/
theorem C1_witness :
    (admitSeq ⟨0, 0⟩ [10, 20, 3600]).1 = [.allowed, .allowed, .allowed] ∧
    (admitSeq ⟨0, 0⟩ [10, 20, 3600]).2.request_count = 3 := by
  have h := C1_admit_within_window 0 [10, 20, 3600]
    (by intro t ht; simp at ht; rcases ht with rfl | rfl | rfl <;> norm_num)
    (by decide)
  exact ⟨h.1.1, h.1.2⟩

/-- Counterexample to claim C2 as stated: with `request_count = 60` and the
window not elapsed in the claim's sense (elapsed exactly 3600s, not more),
the call is Rejected but `retryAfter = 3600 - 3600 = 0`, not strictly
positive. -/
theorem C2_counterexample :
    rate_limit_check ⟨0, 60⟩ 3600 = (.rejected 0, ⟨0, 60⟩) ∧ ¬ ((0 : ℚ) > 0) := by
  constructor
  · norm_num [rate_limit_check, REQUESTS_PER_HOUR]
  · simp

/-- Claim C2 (amended): when `request_count ≥ REQUESTS_PER_HOUR` and the
elapsed time is at most 3600s, the call is Rejected with
`retryAfter = 3600 - elapsed` and the state unchanged; this `retryAfter`
is strictly positive whenever the elapsed time is strictly less than
3600s (at exactly 3600s it is 0). -/
theorem C2_rejected_retryAfter (st : QuotaWindow) (now : ℚ)
    (hcap : st.request_count ≥ REQUESTS_PER_HOUR)
    (hwin : now - st.last_request_time ≤ 3600) :
    rate_limit_check st now =
      (.rejected (3600 - (now - st.last_request_time)), st) ∧
    (now - st.last_request_time < 3600 →
      0 < 3600 - (now - st.last_request_time)) := by
  constructor
  · have h1 : ¬ (now - st.last_request_time > 3600) := not_lt.mpr hwin
    simp [rate_limit_check, h1, hcap]
  · intro h
    linarith

/-- Witness for C2 (amended) at a concrete saturated state. -/
theorem C2_witness :
    rate_limit_check ⟨0, 60⟩ 100 = (.rejected 3500, ⟨0, 60⟩) ∧
    (0 : ℚ) < 3500 := by
  have h := C2_rejected_retryAfter ⟨0, 60⟩ 100 (by decide) (by norm_num)
  refine ⟨?_, by norm_num⟩
  have h1 := h.1
  norm_num at h1
  exact h1

/-- Claim C3: if the elapsed time strictly exceeds 3600s, the next call
resets the window before the capacity check, so it is Allowed with
`request_count = 1` and `last_request_time = now`, whatever the previous
count was; and if the elapsed time is at most 3600s no reset happens: the
call behaves on the unreset state (reject keeping the state, or increment
keeping `last_request_time`). -/
theorem C3_window_reset (st : QuotaWindow) (now : ℚ) :
    (now - st.last_request_time > 3600 →
      rate_limit_check st now = (.allowed, ⟨now, 1⟩)) ∧
    (now - st.last_request_time ≤ 3600 →
      rate_limit_check st now =
        if st.request_count ≥ REQUESTS_PER_HOUR then
          (.rejected (3600 - (now - st.last_request_time)), st)
        else
          (.allowed, ⟨st.last_request_time, st.request_count + 1⟩)) := by
  constructor
  · intro h
    simp [rate_limit_check, h, REQUESTS_PER_HOUR]
  · intro h
    have h1 : ¬ (now - st.last_request_time > 3600) := not_lt.mpr h
    by_cases h2 : st.request_count ≥ REQUESTS_PER_HOUR
    · simp [rate_limit_check, h1, h2]
    · simp [rate_limit_check, h1, h2]

/-- Witness for C3: a reset at elapsed 3601s from a saturated window. -/
theorem C3_witness :
    rate_limit_check ⟨0, 60⟩ 3601 = (.allowed, ⟨3601, 1⟩) := by
  exact (C3_window_reset ⟨0, 60⟩ 3601).1 (by norm_num)

/-- Claim C10: whenever `rate_limit_check` rejects, the quota state is left
unchanged: no increment, no reset. -/
theorem C10_reject_preserves_state (st : QuotaWindow) (now : ℚ) (r : ℚ)
    (h : (rate_limit_check st now).1 = .rejected r) :
    (rate_limit_check st now).2 = st := by
  by_cases h1 : now - st.last_request_time > 3600
  · exfalso
    have hall : (rate_limit_check st now).1 = .allowed := by
      simp [rate_limit_check, h1, REQUESTS_PER_HOUR]
    rw [hall] at h
    exact absurd h (by simp)
  · by_cases h2 : st.request_count ≥ REQUESTS_PER_HOUR
    · simp [rate_limit_check, h1, h2]
    · exfalso
      have hall : (rate_limit_check st now).1 = .allowed := by
        simp [rate_limit_check, h1, h2]
      rw [hall] at h
      exact absurd h (by simp)

/-- Witness for C10 at a concrete rejected call. -/
theorem C10_witness :
    (rate_limit_check ⟨0, 60⟩ 100).2 = ⟨0, 60⟩ := by
  exact C10_reject_preserves_state ⟨0, 60⟩ 100 3500
    (by norm_num [rate_limit_check, REQUESTS_PER_HOUR])

theorem retry_go_attempts_le (keyword : String) (fetch : ℕ → FetchOutcome) :
    ∀ l : List ℕ, (retry_go keyword fetch l).attempts ≤ l.length := by
  intro l
  induction l with
  | nil => simp [retry_go]
  | cons a rest ih =>
    simp only [retry_go, List.length_cons]
    rcases hf : fetch a with data | _ | detail <;> simp only [hf]
    · show (1 : ℕ) ≤ rest.length + 1
      omega
    · split
      · show (retry_go keyword fetch rest).attempts + 1 ≤ rest.length + 1
        omega
      · show (1 : ℕ) ≤ rest.length + 1
        omega
    · split
      · show (retry_go keyword fetch rest).attempts + 1 ≤ rest.length + 1
        omega
      · show (1 : ℕ) ≤ rest.length + 1
        omega

/-- Claim C4: the retry loop makes at most 3 fetch attempts; a fetcher that
throttles on the first two attempts and succeeds on the third yields the
analyzed series after two 30s cooldowns; three throttled attempts yield a
429 after two 30s cooldowns; three transient failures yield a 500 carrying
the last error detail after two 5s backoffs; and a mixed run keeps the
per-attempt pairing of failure kind and fixed delay. -/
theorem C4_retry_policy (keyword : String) (fetch : ℕ → FetchOutcome)
    (data : List ℕ) (d0 d1 d2 : String) :
    (get_trends keyword fetch).attempts ≤ 3 ∧
    (fetch 0 = .throttled → fetch 1 = .throttled → fetch 2 = .success data →
      get_trends keyword fetch = ⟨.ok (analyze keyword data), [30, 30], 3⟩) ∧
    (fetch 0 = .throttled → fetch 1 = .throttled → fetch 2 = .throttled →
      get_trends keyword fetch = ⟨.rateLimited, [30, 30], 3⟩) ∧
    (fetch 0 = .transient d0 → fetch 1 = .transient d1 → fetch 2 = .transient d2 →
      get_trends keyword fetch = ⟨.unavailable d2, [5, 5], 3⟩) ∧
    (fetch 0 = .transient d0 → fetch 1 = .throttled → fetch 2 = .transient d2 →
      get_trends keyword fetch = ⟨.unavailable d2, [5, 30], 3⟩) := by
  have hr : List.range max_retries = [0, 1, 2] := by decide
  refine ⟨?_, ?_, ?_, ?_, ?_⟩
  · calc (get_trends keyword fetch).attempts
        ≤ (List.range max_retries).length := retry_go_attempts_le keyword fetch _
    _ = 3 := by decide
  all_goals
    intro h0 h1 h2
    simp [get_trends, hr, retry_go, h0, h1, h2, max_retries]

/-- Witness for C4: a fetcher that throttles twice then succeeds. -/
theorem C4_witness :
    get_trends "rust"
      (fun n => match n with
        | 0 => .throttled
        | 1 => .throttled
        | _ => .success [42]) =
      ⟨.ok (analyze "rust" [42]), [30, 30], 3⟩ := by
  exact (C4_retry_policy "rust" _ [42] "" "" "").2.1 rfl rfl rfl

theorem batch_go_ok_prefix (pipeline : String → PipelineOutcome)
    (f : String → TrendResult) (total : ℕ) :
    ∀ (pre rest : List String) (acc : List TrendResult),
      (∀ x ∈ pre, pipeline x = .ok (f x)) →
      batch_go pipeline total (pre ++ rest) acc =
        batch_go pipeline total rest (acc ++ pre.map f) := by
  intro pre
  induction pre with
  | nil => intro rest acc _; simp
  | cons k ks ih =>
    intro rest acc hpre
    have hk : pipeline k = .ok (f k) := hpre k (by simp)
    simp only [List.cons_append, batch_go, hk, List.append_eq]
    rw [ih rest (acc ++ [f k]) (fun x hx => hpre x (by simp [hx]))]
    simp

/-- Claim C5: if every keyword before `k` in the truncated list succeeds and
`k` fails with an HTTP 429 (local quota or upstream rate limit after
retries), the batch returns immediately with `partial = true`, the results
gathered so far in order, `completed` equal to their number, `total` equal
to the truncated list length, and `failed_on = k`. -/
theorem C5_batch_partial_on_429 (pipeline : String → PipelineOutcome)
    (f : String → TrendResult) (keywords pre post : List String) (k : String)
    (detail : String)
    (htrunc : keywords.take 3 = pre ++ k :: post)
    (hpre : ∀ x ∈ pre, pipeline x = .ok (f x))
    (hk : pipeline k = .httpError 429 detail) :
    get_trends_batch pipeline keywords =
      .done ⟨pre.map f, true, pre.length, (keywords.take 3).length, some k⟩ := by
  unfold get_trends_batch
  rw [htrunc, batch_go_ok_prefix pipeline f _ pre (k :: post) [] hpre]
  simp [batch_go, hk, htrunc]

/-- Witness for C5: three keywords, the second fails with 429; the first
keyword's result is preserved, `completed = 1`, `failed_on` is the second
keyword. -/
theorem C5_witness :
    get_trends_batch
      (fun k => if k = "b" then .httpError 429 "Rate limit: wait 100s"
                else .ok (analyze k [7]))
      ["a", "b", "c"] =
      .done ⟨[analyze "a" [7]], true, 1, 3, some "b"⟩ := by
  have h := C5_batch_partial_on_429
    (fun k => if k = "b" then .httpError 429 "Rate limit: wait 100s"
              else .ok (analyze k [7]))
    (fun k => analyze k [7]) ["a", "b", "c"] ["a"] ["c"] "b" "Rate limit: wait 100s"
    rfl (by intro x hx; simp at hx; subst hx; rfl) (by rfl)
  simpa using h

/-- Claim C9: if every keyword before `k` in the truncated list succeeds and
`k` fails with an HTTP error whose status is not 429 (e.g. the 500 of
`UpstreamUnavailable`), the batch re-raises that error as a whole-batch
failure and returns no partial body. -/
theorem C9_batch_reraise_non429 (pipeline : String → PipelineOutcome)
    (f : String → TrendResult) (keywords pre post : List String) (k : String)
    (status : ℕ) (detail : String)
    (htrunc : keywords.take 3 = pre ++ k :: post)
    (hpre : ∀ x ∈ pre, pipeline x = .ok (f x))
    (hk : pipeline k = .httpError status detail)
    (hst : status ≠ 429) :
    get_trends_batch pipeline keywords = .raised status detail := by
  unfold get_trends_batch
  rw [htrunc, batch_go_ok_prefix pipeline f _ pre (k :: post) [] hpre]
  simp [batch_go, hk, hst]

/-- Witness for C9: the second keyword fails with HTTP 500 and the whole
batch re-raises it. -/
theorem C9_witness :
    get_trends_batch
      (fun k => if k = "b" then .httpError 500 "timeout"
                else .ok (analyze k [7]))
      ["a", "b", "c"] =
      .raised 500 "timeout" := by
  exact C9_batch_reraise_non429
    (fun k => if k = "b" then .httpError 500 "timeout" else .ok (analyze k [7]))
    (fun k => analyze k [7]) ["a", "b", "c"] ["a"] ["c"] "b" 500 "timeout"
    rfl (by intro x hx; simp at hx; subst hx; rfl) (by rfl) (by decide)

/-- Claim C6: with at least 8 data points, the trend label is exactly the
spec's three-way comparison of the mean of the last 4 points against
1.2 and 0.8 times the mean of points[-8:-4]. -/
theorem C6_trend_classification (keyword : String) (data : List ℕ)
    (hlen : 8 ≤ data.length) :
    (analyze keyword data).trend_direction =
      (if listMean (data.drop (data.length - 4)) >
          listMean ((data.drop (data.length - 8)).take 4) * (12 / 10) then "rising"
       else if listMean (data.drop (data.length - 4)) <
          listMean ((data.drop (data.length - 8)).take 4) * (8 / 10) then "falling"
       else "stable") := by
  have hiE : data.isEmpty = false := by
    cases data
    · simp at hlen
    · rfl
  have h4 : (data.drop (data.length - 4)).length = 4 := by
    rw [List.length_drop]; omega
  have h8 : ((data.drop (data.length - 8)).take 4).length = 4 := by
    rw [List.length_take, List.length_drop]; omega
  have e1 : listMean (data.drop (data.length - 4)) = recent_avg data := by
    rw [listMean, recent_avg, h4]; norm_num
  have e2 : listMean ((data.drop (data.length - 8)).take 4) = previous_avg data := by
    rw [listMean, previous_avg, h8]; norm_num
  rw [e1, e2]
  simp only [analyze, hiE, Bool.false_eq_true, if_false]
  rw [trend_direction_of, if_pos hlen]

/-- Witness for C6: the spec's two 8-point examples, rising and stable. -/
theorem C6_witness :
    (analyze "a" [10, 20, 30, 40, 50, 60, 70, 80]).trend_direction = "rising" ∧
    (analyze "b" [50, 50, 50, 50, 50, 50, 50, 50]).trend_direction = "stable" := by
  constructor
  · rw [C6_trend_classification "a" [10, 20, 30, 40, 50, 60, 70, 80] (by decide)]
    norm_num [listMean]
  · rw [C6_trend_classification "b" [50, 50, 50, 50, 50, 50, 50, 50] (by decide)]
    norm_num [listMean]

/-- Claim C7: an empty series is not a failure: the analysis yields the
`no_data` body with all scores 0 and no data points, and a pipeline whose
first fetch succeeds with an empty series returns it without retries. -/
theorem C7_empty_series_no_data (keyword : String) (fetch : ℕ → FetchOutcome)
    (h : fetch 0 = .success []) :
    analyze keyword [] = ⟨keyword, 0, 0, "no_data", 0, []⟩ ∧
    get_trends keyword fetch =
      ⟨.ok ⟨keyword, 0, 0, "no_data", 0, []⟩, [], 1⟩ := by
  have hr : List.range max_retries = [0, 1, 2] := by decide
  refine ⟨rfl, ?_⟩
  simp [get_trends, hr, retry_go, h, analyze]

/-- Witness for C7 at a concrete fetcher returning an empty series. -/
theorem C7_witness :
    get_trends "obscure" (fun _ => .success []) =
      ⟨.ok ⟨"obscure", 0, 0, "no_data", 0, []⟩, [], 1⟩ := by
  exact (C7_empty_series_no_data "obscure" (fun _ => .success []) rfl).2

theorem foldl_max_mem (l : List ℕ) : ∀ a : ℕ, l.foldl max a = a ∨ l.foldl max a ∈ l := by
  induction l with
  | nil => intro a; left; rfl
  | cons b bs ih =>
    intro a
    simp only [List.foldl_cons]
    rcases ih (max a b) with h | h
    · rcases max_choice a b with hm | hm
      · left; rw [h, hm]
      · right; rw [h, hm]; exact List.mem_cons_self b bs
    · right; exact List.mem_cons_of_mem b h

theorem le_foldl_max (l : List ℕ) :
    ∀ a : ℕ, a ≤ l.foldl max a ∧ ∀ x ∈ l, x ≤ l.foldl max a := by
  induction l with
  | nil => intro a; exact ⟨Nat.le_refl a, by simp⟩
  | cons b bs ih =>
    intro a
    simp only [List.foldl_cons]
    refine ⟨Nat.le_trans (Nat.le_max_left a b) (ih (max a b)).1, ?_⟩
    intro x hx
    rcases List.mem_cons.mp hx with rfl | hx
    · exact Nat.le_trans (Nat.le_max_right a x) (ih (max a x)).1
    · exact (ih (max a b)).2 x hx

/-- Claim C8: a non-empty series with fewer than 8 points is classified as
`insufficient_data`, while `current_score` is the last element,
`average_score` the floor of the mean, and `peak_score` a maximum of the
series (an element bounding every element), with the data points kept. -/
theorem C8_insufficient_data (keyword : String) (data : List ℕ)
    (hne : data ≠ []) (hlt : data.length < 8) :
    (analyze keyword data).trend_direction = "insufficient_data" ∧
    (analyze keyword data).current_score = data.getLast hne ∧
    (analyze keyword data).average_score = ⌊listMean data⌋₊ ∧
    (analyze keyword data).peak_score ∈ data ∧
    (∀ x ∈ data, x ≤ (analyze keyword data).peak_score) ∧
    (analyze keyword data).data_points = data := by
  have hiE : data.isEmpty = false := by
    cases data
    · exact absurd rfl hne
    · rfl
  have hanalyze : analyze keyword data =
      ⟨keyword, data.getLastD 0, data.sum / data.length, trend_direction_of data,
        data.foldl max 0, data⟩ := by
    simp [analyze, hiE]
  rw [hanalyze]
  refine ⟨?_, ?_, ?_, ?_, ?_, rfl⟩
  · show trend_direction_of data = "insufficient_data"
    rw [trend_direction_of, if_neg (by omega)]
  · show data.getLastD 0 = data.getLast hne
    rw [List.getLastD_eq_getLast?, List.getLast?_eq_getLast data hne]
    rfl
  · show data.sum / data.length = ⌊listMean data⌋₊
    rw [listMean, Nat.floor_div_eq_div]
  · show data.foldl max 0 ∈ data
    rcases data with _ | ⟨b, bs⟩
    · exact absurd rfl hne
    · simp only [List.foldl_cons, Nat.zero_max]
      rcases foldl_max_mem bs b with h | h
      · rw [h]; exact List.mem_cons_self b bs
      · exact List.mem_cons_of_mem b h
  · show ∀ x ∈ data, x ≤ data.foldl max 0
    rcases data with _ | ⟨b, bs⟩
    · exact absurd rfl hne
    · simp only [List.foldl_cons, Nat.zero_max]
      intro x hx
      rcases List.mem_cons.mp hx with rfl | hx
      · exact (le_foldl_max bs x).1
      · exact (le_foldl_max bs b).2 x hx

/-- Witness for C8: the spec's 3-point example with current 30, average 20,
peak 30. -/
theorem C8_witness :
    (analyze "python" [10, 20, 30]).trend_direction = "insufficient_data" ∧
    (analyze "python" [10, 20, 30]).current_score = 30 ∧
    (analyze "python" [10, 20, 30]).average_score = 20 ∧
    (analyze "python" [10, 20, 30]).peak_score = 30 := by
  have h := C8_insufficient_data "python" [10, 20, 30] (by decide) (by decide)
  refine ⟨h.1, ?_, ?_, ?_⟩
  · rw [h.2.1]; rfl
  · rw [h.2.2.1]
    have hm : listMean [10, 20, 30] = 20 := by norm_num [listMean]
    rw [hm]
    simp
  · have hmem := h.2.2.2.1
    have hub := h.2.2.2.2.1 30 (by simp)
    simp only [List.mem_cons, List.not_mem_nil, or_false] at hmem
    omega

end GoogleTrends
